import Mathlib

/-!
Shallow embedding of the collaborative-whiteboard board-state container
(src/src/store/boardStore.ts and its temporal variant) together with the
debounced-persistence scheduler and the bounded undo/redo history, and
proofs of the specification claims about them.

JS strings become `String`, JS numbers used for coordinates become `Int`
(the arithmetic performed on them is addition of small constants), arrays
become `List`, `undefined`-able fields become `Option`, and the zustand
store's state record becomes the structure `BoardState`.  `crypto.randomUUID`
is modelled by an explicit id-generator function `Nat → String` applied to a
call counter, mirroring the sequential calls in the source.
-/

set_option maxHeartbeats 1000000

namespace CollabBoard

/-- Named connection points on an object's boundary (ConnectionPointId in the source). -/
inductive ConnectionPointId
  | top
  | bottom
  | left
  | right
  | center
deriving DecidableEq

/-- The BoardObject.type union in the source. -/
inductive ObjType
  | stickyNote
  | rectangle
  | circle
  | line
  | frame
  | text
  | connector
deriving DecidableEq

/-- Arrowhead style of connectorProperties. -/
inductive Arrowhead
  | noArrow
  | oneWay
  | twoWay
deriving DecidableEq

/-- A connector endpoint: `{ objectId: string; point: ConnectionPointId }`. -/
structure Endpoint where
  objectId : String
  point : ConnectionPointId
deriving DecidableEq

/-- Display properties of a connector. -/
structure ConnectorProperties where
  color : String
  thickness : Int
  arrowhead : Arrowhead
deriving DecidableEq

/-- A drawable entity (interface BoardObject in the source); optional fields are `Option`. -/
structure BoardObject where
  id : String
  type : ObjType
  x : Int
  y : Int
  width : Int
  height : Int
  text : Option String := none
  color : Option String := none
  rotation : Option Int := none
  points : Option (List Int) := none
  strokeColor : Option String := none
  source : Option Endpoint := none
  target : Option Endpoint := none
  connectorProperties : Option ConnectorProperties := none
deriving DecidableEq

/-- clipboardMode: 'copy' | 'cut' | null (null becomes `none` at the use site). -/
inductive ClipMode
  | copy
  | cut
deriving DecidableEq

/-- The ActiveTool union of the source. -/
inductive ActiveTool
  | select
  | pan
  | draw
  | rect
  | connector
  | frame
deriving DecidableEq

/-- The zustand store's state record (interface BoardState in the source),
restricted to its data fields; the actions become the functions below. -/
structure BoardState where
  boardId : Option String
  objects : List BoardObject
  selectedObjectIds : List String
  clipboard : List BoardObject
  clipboardMode : Option ClipMode
  pasteCount : Nat
  panX : Int
  panY : Int
  zoom : Int
  isSyncing : Bool
  lastSynced : Option Nat
  activeTool : ActiveTool
deriving DecidableEq

/-- The initial store state from the source's `create` call. -/
def initialState : BoardState :=
  { boardId := none
    objects := []
    selectedObjectIds := []
    clipboard := []
    clipboardMode := none
    pasteCount := 0
    panX := 0
    panY := 0
    zoom := 1
    isSyncing := false
    lastSynced := none
    activeTool := ActiveTool.select }

/-- A `Partial BoardObject` argument of updateObject: each field optionally present. -/
structure ObjectUpdates where
  id : Option String := none
  type : Option ObjType := none
  x : Option Int := none
  y : Option Int := none
  width : Option Int := none
  height : Option Int := none
  text : Option (Option String) := none
  color : Option (Option String) := none
  rotation : Option (Option Int) := none
  points : Option (Option (List Int)) := none
  strokeColor : Option (Option String) := none
  source : Option (Option Endpoint) := none
  target : Option (Option Endpoint) := none
  connectorProperties : Option (Option ConnectorProperties) := none
deriving DecidableEq

/-- The object spread `{ ...obj, ...updates }`: fields present in `updates` override. -/
def applyUpdates (o : BoardObject) (u : ObjectUpdates) : BoardObject :=
  { id := u.id.getD o.id
    type := u.type.getD o.type
    x := u.x.getD o.x
    y := u.y.getD o.y
    width := u.width.getD o.width
    height := u.height.getD o.height
    text := u.text.getD o.text
    color := u.color.getD o.color
    rotation := u.rotation.getD o.rotation
    points := u.points.getD o.points
    strokeColor := u.strokeColor.getD o.strokeColor
    source := u.source.getD o.source
    target := u.target.getD o.target
    connectorProperties := u.connectorProperties.getD o.connectorProperties }

/-- `Array.prototype.includes` on a list of ids. -/
def inclStr (l : List String) (x : String) : Bool :=
  l.any (fun y => y == x)

/-- `obj.source?.objectId === id`: when the endpoint is absent the comparison is false. -/
def refBy (id : String) (e : Option Endpoint) : Bool :=
  match e with
  | some ep => ep.objectId == id
  | none => false

/-- The `o.source?.objectId ?? ''` idiom: absent endpoint falls back to the empty string. -/
def endpointId (e : Option Endpoint) : String :=
  match e with
  | some ep => ep.objectId
  | none => ""

/-- setObjects — replaces the object sequence; used for remote updates, does NOT re-sync. -/
def setObjects (objs : List BoardObject) (s : BoardState) : BoardState :=
  { s with objects := objs }

/-- addObject — appends the object to the sequence. -/
def addObject (o : BoardObject) (s : BoardState) : BoardState :=
  { s with objects := s.objects ++ [o] }

/-- updateObject — merges the update fields into every object whose id matches. -/
def updateObject (id : String) (u : ObjectUpdates) (s : BoardState) : BoardState :=
  { s with objects := s.objects.map (fun o => if o.id == id then applyUpdates o u else o) }

/-- deleteObject — removes the object with the given id, cascade-removes any
connector whose source or target references it, and prunes the id from the selection. -/
def deleteObject (id : String) (s : BoardState) : BoardState :=
  { s with
    objects := s.objects.filter (fun o =>
      if o.id == id then false
      else if o.type == ObjType.connector && (refBy id o.source || refBy id o.target) then false
      else true)
    selectedObjectIds := s.selectedObjectIds.filter (fun sid => sid != id) }

/-- selectObject — replace the selection by {id}, or toggle membership when multiSelect. -/
def selectObject (id : String) (multiSelect : Bool) (s : BoardState) : BoardState :=
  { s with
    selectedObjectIds :=
      if multiSelect then
        if inclStr s.selectedObjectIds id then
          s.selectedObjectIds.filter (fun sid => sid != id)
        else s.selectedObjectIds ++ [id]
      else [id] }

/-- setSelectedObjectIds — wholesale selection replacement. -/
def setSelectedObjectIds (ids : List String) (s : BoardState) : BoardState :=
  { s with selectedObjectIds := ids }

/-- clearSelection. -/
def clearSelection (s : BoardState) : BoardState :=
  { s with selectedObjectIds := [] }

/-- Connectors implicitly included in a copy/cut/duplicate batch: unselected
connectors both of whose endpoints (with the `?? ''` fallback) are selected. -/
def implicitConnectors (sel : List String) (objects : List BoardObject) : List BoardObject :=
  objects.filter (fun o =>
    (o.type == ObjType.connector) && !(inclStr sel o.id)
      && inclStr sel (endpointId o.source) && inclStr sel (endpointId o.target))

/-- copySelection — snapshot of selected objects plus implicit connectors into
the clipboard; resets the paste counter; no-op on empty selection. -/
def copySelection (s : BoardState) : BoardState :=
  if s.selectedObjectIds = [] then s
  else
    { s with
      clipboard :=
        s.objects.filter (fun o => inclStr s.selectedObjectIds o.id)
          ++ implicitConnectors s.selectedObjectIds s.objects
      clipboardMode := some ClipMode.copy
      pasteCount := 0 }

/-- cutSelection — like copy but also removes the clipboard objects from the board,
cascade-removing connectors that reference any cut object. -/
def cutSelection (s : BoardState) : BoardState :=
  if s.selectedObjectIds = [] then s
  else
    let clip :=
      s.objects.filter (fun o => inclStr s.selectedObjectIds o.id)
        ++ implicitConnectors s.selectedObjectIds s.objects
    let clipboardIds := clip.map (fun o => o.id)
    { s with
      clipboard := clip
      clipboardMode := some ClipMode.cut
      pasteCount := 0
      objects := s.objects.filter (fun o =>
        if inclStr clipboardIds o.id then false
        else if o.type == ObjType.connector
            && (inclStr s.selectedObjectIds (endpointId o.source)
                || inclStr s.selectedObjectIds (endpointId o.target)) then false
        else true)
      selectedObjectIds := [] }

/-- The first paste/duplicate loop: each non-connector clipboard entry gets a fresh
id (the k-th `crypto.randomUUID()` call becomes `uuid k`) and the position offset;
returns the old-id-to-new-id map together with the clones, in clipboard order. -/
def cloneNonConn (uuid : Nat → String) (offset : Int) :
    List BoardObject → Nat → List (String × String) × List BoardObject
  | [], _ => ([], [])
  | o :: rest, k =>
    if o.type == ObjType.connector then cloneNonConn uuid offset rest k
    else
      let r := cloneNonConn uuid offset rest (k + 1)
      ((o.id, uuid k) :: r.1,
        { o with id := uuid k, x := o.x + offset, y := o.y + offset } :: r.2)

/-- `idMap.get(x) ?? x`. -/
def lookupId (m : List (String × String)) (i : String) : String :=
  match m.find? (fun p => p.1 == i) with
  | some p => p.2
  | none => i

/-- The second paste/duplicate loop: every connector having both endpoints present
is cloned with a fresh id and endpoints remapped through the id map (falling back
to the original object id); connectors missing an endpoint, and non-connectors,
are skipped without consuming an id. -/
def cloneConn (uuid : Nat → String) (m : List (String × String)) :
    List BoardObject → Nat → List BoardObject
  | [], _ => []
  | o :: rest, k =>
    if o.type == ObjType.connector then
      match o.source, o.target with
      | some es, some et =>
        { o with
          id := uuid k
          source := some { es with objectId := lookupId m es.objectId }
          target := some { et with objectId := lookupId m et.objectId } }
          :: cloneConn uuid m rest (k + 1)
      | some _, none => cloneConn uuid m rest k
      | none, _ => cloneConn uuid m rest k
    else cloneConn uuid m rest k

/-- pasteClipboard — clones the clipboard with fresh ids at an accumulating offset
`(pasteCount + 1) * 20`, remaps connector endpoints, appends the clones, selects
them, bumps the paste counter, and consumes a cut-sourced clipboard. -/
def pasteClipboard (uuid : Nat → String) (s : BoardState) : BoardState :=
  if s.clipboard = [] then s
  else
    let offset : Int := ((s.pasteCount : Int) + 1) * 20
    let r := cloneNonConn uuid offset s.clipboard 0
    let conns := cloneConn uuid r.1 s.clipboard r.2.length
    let newObjects := r.2 ++ conns
    { s with
      objects := s.objects ++ newObjects
      selectedObjectIds := newObjects.map (fun o => o.id)
      pasteCount := s.pasteCount + 1
      clipboard := if s.clipboardMode = some ClipMode.cut then [] else s.clipboard
      clipboardMode := if s.clipboardMode = some ClipMode.cut then none else s.clipboardMode }

/-- duplicateSelection — clone the selected non-connectors at a fixed offset 20
plus the implicit connectors (both endpoints selected); the clipboard is untouched.
Its connector loop runs over the implicit connectors only, which all have type
connector, so it coincides with `cloneConn` on that list. -/
def duplicateSelection (uuid : Nat → String) (s : BoardState) : BoardState :=
  if s.selectedObjectIds = [] then s
  else
    let selected := s.objects.filter (fun o => inclStr s.selectedObjectIds o.id)
    let implicit := implicitConnectors s.selectedObjectIds s.objects
    let r := cloneNonConn uuid 20 selected 0
    let conns := cloneConn uuid r.1 implicit r.2.length
    let newObjects := r.2 ++ conns
    { s with
      objects := s.objects ++ newObjects
      selectedObjectIds := newObjects.map (fun o => o.id) }

/-- deleteSelectedObjects — batch delete of the selection with connector cascade;
no-op on empty selection. -/
def deleteSelectedObjects (s : BoardState) : BoardState :=
  if s.selectedObjectIds = [] then s
  else
    { s with
      objects := s.objects.filter (fun o =>
        if inclStr s.selectedObjectIds o.id then false
        else if o.type == ObjType.connector
            && (inclStr s.selectedObjectIds (endpointId o.source)
                || inclStr s.selectedObjectIds (endpointId o.target)) then false
        else true)
      selectedObjectIds := [] }

/-- clearObjects — empties the object sequence and the selection. -/
def clearObjects (s : BoardState) : BoardState :=
  { s with objects := [], selectedObjectIds := [] }

/-- rearrangeObjects — batch position update; objects not named are untouched. -/
def rearrangeObjects (ps : List (String × Int × Int)) (s : BoardState) : BoardState :=
  { s with
    objects := s.objects.map (fun o =>
      match ps.find? (fun p => p.1 == o.id) with
      | some p => { o with x := p.2.1, y := p.2.2 }
      | none => o) }

/-- syncToDatabase — the remote write.  The supabase call is external, so its
outcome is the parameter `err`; `now` is the `new Date()` timestamp.  Returns the
post-call state together with the attempted write (board id and payload), `none`
when `boardId` is unset (early return, no write).  On error only the log happens:
`lastSynced` keeps its prior value and no other field is touched. -/
def syncToDatabase (err : Bool) (now : Nat) (s : BoardState) :
    BoardState × Option (String × List BoardObject) :=
  match s.boardId with
  | none => (s, none)
  | some bid =>
    ({ s with isSyncing := false, lastSynced := if err then s.lastSynced else some now },
      some (bid, s.objects))

/-- The public mutation surface of the container as a syntactic operation type,
so that properties can quantify over call sequences.  Paste and duplicate carry
their id generator. -/
inductive Op
  | add (o : BoardObject)
  | update (id : String) (u : ObjectUpdates)
  | delete (id : String)
  | deleteSelected
  | select (id : String) (multiSelect : Bool)
  | setSelection (ids : List String)
  | clearSel
  | copy
  | cut
  | paste (uuid : Nat → String)
  | duplicate (uuid : Nat → String)
  | clearObjs
  | rearrange (ps : List (String × Int × Int))
  | setObjs (objs : List BoardObject)

/-- Dispatch of an operation to its store action. -/
def applyOp (op : Op) (s : BoardState) : BoardState :=
  match op with
  | Op.add o => addObject o s
  | Op.update id u => updateObject id u s
  | Op.delete id => deleteObject id s
  | Op.deleteSelected => deleteSelectedObjects s
  | Op.select id m => selectObject id m s
  | Op.setSelection ids => setSelectedObjectIds ids s
  | Op.clearSel => clearSelection s
  | Op.copy => copySelection s
  | Op.cut => cutSelection s
  | Op.paste uuid => pasteClipboard uuid s
  | Op.duplicate uuid => duplicateSelection uuid s
  | Op.clearObjs => clearObjects s
  | Op.rearrange ps => rearrangeObjects ps s
  | Op.setObjs objs => setObjects objs s

/-- Apply a call sequence left to right. -/
def applyOps : List Op → BoardState → BoardState
  | [], s => s
  | op :: l, s => applyOps l (applyOp op s)

/-- Whether the action invokes `scheduleSyncDebounced` (arming or re-arming the
600 ms persistence timer) when called on state `s`.  The early-returning actions
arm nothing on an empty selection or clipboard; setObjects and the pure selection
or clipboard actions never arm. -/
def armsSync (op : Op) (s : BoardState) : Bool :=
  match op with
  | Op.add _ => true
  | Op.update _ _ => true
  | Op.delete _ => true
  | Op.deleteSelected => !(s.selectedObjectIds = ([] : List String))
  | Op.select _ _ => false
  | Op.setSelection _ => false
  | Op.clearSel => false
  | Op.copy => false
  | Op.cut => !(s.selectedObjectIds = ([] : List String))
  | Op.paste _ => !(s.clipboard = ([] : List BoardObject))
  | Op.duplicate _ => !(s.selectedObjectIds = ([] : List String))
  | Op.clearObjs => true
  | Op.rearrange _ => true
  | Op.setObjs _ => false

/-- Whether the action's `set` call carries an `objects` field, i.e. constructs a
fresh objects array.  This is exactly the reference-inequality test
`a.objects === b.objects` of the temporal middleware's equality option: map,
filter and spread always build a new array, so even a content-preserving update
changes the reference. -/
def touchesObjects (op : Op) (s : BoardState) : Bool :=
  match op with
  | Op.add _ => true
  | Op.update _ _ => true
  | Op.delete _ => true
  | Op.deleteSelected => !(s.selectedObjectIds = ([] : List String))
  | Op.select _ _ => false
  | Op.setSelection _ => false
  | Op.clearSel => false
  | Op.copy => false
  | Op.cut => !(s.selectedObjectIds = ([] : List String))
  | Op.paste _ => !(s.clipboard = ([] : List BoardObject))
  | Op.duplicate _ => !(s.selectedObjectIds = ([] : List String))
  | Op.clearObjs => true
  | Op.rearrange _ => true
  | Op.setObjs _ => true

/-- The history depth configured in the source (temporal option `limit: 100`). -/
def histLimit : Nat := 100

/-- Modelled from the spec: the bounded double-ended snapshot stack of the
undo/redo middleware (the zundo `temporal` wrapper configured in the source),
whose implementation lives in the library, not under src/.  Per the spec, it
keeps past and future stacks of the partialized slice (the object sequence
only), plus the ARMED/PAUSED recording flag. -/
structure Temporal where
  pastStates : List (List BoardObject)
  futureStates : List (List BoardObject)
  tracking : Bool
deriving DecidableEq

/-- A board state together with its undo/redo history. -/
structure HistState where
  board : BoardState
  hist : Temporal
deriving DecidableEq

/-- The initial history: empty stacks, recording armed. -/
def initialHist : HistState :=
  { board := initialState
    hist := { pastStates := [], futureStates := [], tracking := true } }

/-- Modelled from the spec: applying a store action under the temporal wrapper.
When recording is armed and the objects array reference changes, the previous
object sequence is pushed onto the past stack, the future stack is cleared, and
the past stack is truncated to the depth limit (oldest entries dropped);
otherwise the history is untouched. -/
def applyOpH (op : Op) (s : HistState) : HistState :=
  let b := applyOp op s.board
  if s.hist.tracking && touchesObjects op s.board then
    { board := b
      hist :=
        { pastStates := (s.board.objects :: s.hist.pastStates).take histLimit
          futureStates := []
          tracking := s.hist.tracking } }
  else { board := b, hist := s.hist }

/-- Apply a call sequence under the temporal wrapper. -/
def applyOpsH : List Op → HistState → HistState
  | [], s => s
  | op :: l, s => applyOpsH l (applyOpH op s)

/-- Modelled from the spec: undo() — if the past stack is non-empty, pop its top
entry, push the current object sequence onto the future stack, and restore the
popped sequence (only the partialized objects slice is restored). -/
def undoH (s : HistState) : HistState :=
  match s.hist.pastStates with
  | [] => s
  | p :: rest =>
    { board := { s.board with objects := p }
      hist :=
        { pastStates := rest
          futureStates := s.board.objects :: s.hist.futureStates
          tracking := s.hist.tracking } }

/-- Modelled from the spec: redo() — symmetric to undo(). -/
def redoH (s : HistState) : HistState :=
  match s.hist.futureStates with
  | [] => s
  | f :: rest =>
    { board := { s.board with objects := f }
      hist :=
        { pastStates := s.board.objects :: s.hist.pastStates
          futureStates := rest
          tracking := s.hist.tracking } }

/-- n-fold undo. -/
def undoN : Nat → HistState → HistState
  | 0, s => s
  | n + 1, s => undoN n (undoH s)

/-- n-fold redo, outermost application last. -/
def redoN : Nat → HistState → HistState
  | 0, s => s
  | n + 1, s => redoH (redoN n s)

/-- Modelled from the spec: pause() — suppress history recording. -/
def pauseH (s : HistState) : HistState :=
  { s with hist := { s.hist with tracking := false } }

/-- Modelled from the spec: resume() — re-arm history recording. -/
def resumeH (s : HistState) : HistState :=
  { s with hist := { s.hist with tracking := true } }

/-- The sync bridge's handling of a change notification (useBoardSync):
pause the history, replace the object sequence via setObjects, resume. -/
def remoteReplace (payload : List BoardObject) (s : HistState) : HistState :=
  resumeH (applyOpH (Op.setObjs payload) (pauseH s))

/-- State of the debounced-persistence simulation: the store, the absolute fire
time of the armed timer (if any), and the log of completed remote writes
(fire time, board id, payload). -/
structure SyncTrace where
  state : BoardState
  pending : Option Nat
  writes : List (Nat × String × List BoardObject)
deriving DecidableEq

/-- If the armed timer is due at time `t`, it fires: `syncToDatabase` runs on the
current state (successfully) and the write is logged; a fired timer is disarmed. -/
def fireIfDue (t : Nat) (tr : SyncTrace) : SyncTrace :=
  match tr.pending with
  | none => tr
  | some ft =>
    if ft ≤ t then
      let r := syncToDatabase false ft tr.state
      { state := r.1
        pending := none
        writes := tr.writes ++ (match r.2 with
          | some w => [(ft, w.1, w.2)]
          | none => []) }
    else tr

/-- Process one timestamped call: first let a due timer fire, then apply the
operation, re-arming the timer to `t + 600` when the action schedules a sync. -/
def stepEvent (tr : SyncTrace) (ev : Nat × Op) : SyncTrace :=
  let tr1 := fireIfDue ev.1 tr
  { state := applyOp ev.2 tr1.state
    pending := if armsSync ev.2 tr1.state then some (ev.1 + 600) else tr1.pending
    writes := tr1.writes }

/-- Process a timestamped call sequence. -/
def runEvents : SyncTrace → List (Nat × Op) → SyncTrace
  | tr, [] => tr
  | tr, ev :: rest => runEvents (stepEvent tr ev) rest

/-- After the calls stop, let the armed timer (if any) fire at its due time. -/
def flushTrace (tr : SyncTrace) : SyncTrace :=
  match tr.pending with
  | none => tr
  | some ft => fireIfDue ft tr

/-- Every consecutive call follows its predecessor no earlier, and strictly
within the 600 ms debounce window. -/
def dense600 : Nat → List (Nat × Op) → Bool
  | _, [] => true
  | tprev, (t, _) :: rest => decide (tprev ≤ t) && decide (t < tprev + 600) && dense600 t rest

/-- Every call in the sequence arms the debounce timer at its application state. -/
def allArm (s : BoardState) : List (Nat × Op) → Bool
  | [] => true
  | (_, op) :: rest => armsSync op s && allArm (applyOp op s) rest

/-- Every call in the sequence changes the objects array reference at its
application state (a "mutating operation" in the spec's sense). -/
def allTouch (s : HistState) : List Op → Bool
  | [] => true
  | op :: l => touchesObjects op s.board && allTouch (applyOpH op s) l

/-- The object-sequence snapshots a call sequence records, newest first: the
value the past stack accumulates when every call touches the objects array. -/
def objTrace : List Op → HistState → List (List BoardObject)
  | [], _ => []
  | op :: l, s => objTrace l (applyOpH op s) ++ [s.board.objects]

/-- Bool form of the selection subset invariant: every selected id is the id of
some object in the sequence. -/
def hasId (objs : List BoardObject) (sid : String) : Bool :=
  objs.any (fun o => o.id == sid)

/-- selInv s: the selection is a subset of the existing object ids. -/
def selInv (s : BoardState) : Bool :=
  s.selectedObjectIds.all (hasId s.objects)

/-- Bool form of the no-dangling-connector invariant: every connector endpoint
that is present references an existing object id. -/
def danglingFree (objs : List BoardObject) : Bool :=
  objs.all (fun o =>
    !(o.type == ObjType.connector)
      || ((match o.source with
            | some e => hasId objs e.objectId
            | none => true)
          && (match o.target with
            | some e => hasId objs e.objectId
            | none => true)))

/-! Concrete fixtures used by witnesses and counterexamples. -/

/-- A sticky note at (100,100). -/
def noteA : BoardObject :=
  { id := "a", type := ObjType.stickyNote, x := 100, y := 100, width := 160, height := 100 }

/-- A rectangle at (300,100). -/
def rectB : BoardObject :=
  { id := "b", type := ObjType.rectangle, x := 300, y := 100, width := 120, height := 80 }

/-- A connector from a's right point to b's left point. -/
def connAB : BoardObject :=
  { id := "c", type := ObjType.connector, x := 0, y := 0, width := 0, height := 0
    source := some { objectId := "a", point := ConnectionPointId.right }
    target := some { objectId := "b", point := ConnectionPointId.left } }

/-- C7 counterexample state: no object has id "k", yet "k" is (stale) selected. -/
def c7state : BoardState :=
  { initialState with selectedObjectIds := ["k"] }

/-- C8 counterexample state: the clipboard holds a connector whose endpoint ids
"a" and "b" are not ids of any clipboard entry. -/
def c8state : BoardState :=
  { initialState with clipboard := [connAB], clipboardMode := some ClipMode.copy }

/-- The concrete board of the C1 witness: A, B and a connector A→B, A selected. -/
def c1state : BoardState :=
  { initialState with objects := [noteA, rectB, connAB], selectedObjectIds := ["a"] }

/-- The concrete state of the C8 witness: A, B and connector, A and B selected,
the connector alone copied. -/
def c8wstate : BoardState :=
  { initialState with
    objects := [noteA, rectB, connAB]
    selectedObjectIds := ["a", "b"]
    clipboard := [connAB]
    clipboardMode := some ClipMode.copy }

/-- The concrete state of the C6 witness: A and B copied. -/
def c6state : BoardState :=
  { initialState with
    objects := [noteA, rectB]
    clipboard := [noteA, rectB]
    clipboardMode := some ClipMode.copy
    pasteCount := 0 }

/-- The C5 witness state: a board id is set. -/
def c5init : BoardState :=
  { initialState with boardId := some "board1" }

/-- Side conditions under which a call preserves the selection subset invariant:
the selection-setting calls must reference existing ids, a remote replace must
retain all selected ids, updates must not rewrite the id field to a different
id, and a delete must not have a selected connector hanging off the deleted id. -/
def opOk (op : Op) (s : BoardState) : Bool :=
  match op with
  | Op.update id u => decide (u.id = none ∨ u.id = some id)
  | Op.delete id =>
      s.objects.all (fun o =>
        !(inclStr s.selectedObjectIds o.id && (o.type == ObjType.connector)
            && (refBy id o.source || refBy id o.target)))
  | Op.select id _ => hasId s.objects id
  | Op.setSelection ids => ids.all (hasId s.objects)
  | Op.setObjs objs => s.selectedObjectIds.all (hasId objs)
  | _ => true

/-- Chained side conditions along a call sequence. -/
def seqOk (s : BoardState) : List Op → Bool
  | [] => true
  | op :: l => opOk op s && seqOk (applyOp op s) l

/-! Basic helper lemmas. -/

theorem inclStr_iff (l : List String) (x : String) : inclStr l x = true ↔ x ∈ l := by
  simp [inclStr, List.any_eq_true]

theorem refBy_endpointId {a : String} {e : Option Endpoint} (h : refBy a e = true) :
    endpointId e = a := by
  cases e with
  | none => simp [refBy] at h
  | some ep =>
    simp [refBy] at h
    simp [endpointId, h]

theorem applyOp_boardId (op : Op) (s : BoardState) : (applyOp op s).boardId = s.boardId := by
  cases op <;>
    simp only [applyOp, addObject, updateObject, deleteObject, deleteSelectedObjects,
      selectObject, setSelectedObjectIds, clearSelection, copySelection, cutSelection,
      pasteClipboard, duplicateSelection, clearObjects, rearrangeObjects, setObjects] <;>
    split_ifs <;> rfl

theorem applyOps_boardId (l : List Op) : ∀ s : BoardState, (applyOps l s).boardId = s.boardId := by
  induction l with
  | nil => intro s; rfl
  | cons op l ih => intro s; rw [applyOps, ih, applyOp_boardId]

/-- C9: if the remote write performed by syncToDatabase fails, the objects
sequence, selection, clipboard (and its mode and paste counter), viewport and
lastSynced are exactly as before the write; the failure is only logged. -/
theorem c9_sync_failure_frame (s : BoardState) (now : Nat) :
    ((syncToDatabase true now s).1.objects = s.objects)
    ∧ ((syncToDatabase true now s).1.selectedObjectIds = s.selectedObjectIds)
    ∧ ((syncToDatabase true now s).1.clipboard = s.clipboard)
    ∧ ((syncToDatabase true now s).1.clipboardMode = s.clipboardMode)
    ∧ ((syncToDatabase true now s).1.pasteCount = s.pasteCount)
    ∧ ((syncToDatabase true now s).1.lastSynced = s.lastSynced)
    ∧ ((syncToDatabase true now s).1.panX = s.panX)
    ∧ ((syncToDatabase true now s).1.panY = s.panY)
    ∧ ((syncToDatabase true now s).1.zoom = s.zoom)
    ∧ ((syncToDatabase true now s).1.boardId = s.boardId) := by
  cases h : s.boardId <;> simp [syncToDatabase, h]

/-- C10: updateObject(id, updates) merges the given fields into exactly the
objects whose id matches; every object at a position whose id differs is
unchanged field-for-field, the sequence length (hence relative order) is
unchanged, and selection, clipboard, clipboardMode, pasteCount and the viewport
are unchanged. -/
theorem c10_update_frame (s : BoardState) (id : String) (u : ObjectUpdates) :
    ((updateObject id u s).objects.length = s.objects.length)
    ∧ (∀ (i : Nat) (o : BoardObject), s.objects[i]? = some o → o.id ≠ id →
        (updateObject id u s).objects[i]? = some o)
    ∧ (∀ (i : Nat) (o : BoardObject), s.objects[i]? = some o → o.id = id →
        (updateObject id u s).objects[i]? = some (applyUpdates o u))
    ∧ ((updateObject id u s).selectedObjectIds = s.selectedObjectIds)
    ∧ ((updateObject id u s).clipboard = s.clipboard)
    ∧ ((updateObject id u s).clipboardMode = s.clipboardMode)
    ∧ ((updateObject id u s).pasteCount = s.pasteCount)
    ∧ ((updateObject id u s).panX = s.panX)
    ∧ ((updateObject id u s).panY = s.panY)
    ∧ ((updateObject id u s).zoom = s.zoom) := by
  refine ⟨by simp [updateObject], ?_, ?_, rfl, rfl, rfl, rfl, rfl, rfl, rfl⟩
  · intro i o hio hne
    simp [updateObject, List.getElem?_map, hio, hne]
  · intro i o hio heq
    simp [updateObject, List.getElem?_map, hio, heq]

/-- Witness for C10 at a concrete input. -/
theorem c10_update_frame_witness :
    ((updateObject "a" { x := some 5 } (addObject noteA initialState)).objects.length
      = (addObject noteA initialState).objects.length)
    ∧ ((updateObject "a" { x := some 5 } (addObject noteA initialState)).objects[0]?
      = some (applyUpdates noteA { x := some 5 })) := by
  have h := c10_update_frame (addObject noteA initialState) "a" { x := some 5 }
  exact ⟨h.1, h.2.2.1 0 noteA rfl rfl⟩

/-- C7 counterexample: deleting the absent id "k" from a state whose (stale)
selection contains "k" changes the selection set, so the delete is not a
complete no-op on every board state. -/
theorem c7_counterexample :
    (c7state.objects.all (fun o => o.id != "k") = true)
    ∧ (deleteObject "k" c7state).selectedObjectIds ≠ c7state.selectedObjectIds := by
  constructor
  · decide
  · decide

/-- C7 amended: deleting an id absent from the object sequence is a complete
no-op (sequence, selection, clipboard — indeed the whole state — unchanged)
provided additionally that the absent id is not (stale) in the selection and no
connector endpoint references it; both provisos hold automatically in states
satisfying the selection-subset and no-dangling-connector invariants. -/
theorem c7_idempotent_delete (s : BoardState) (k : String)
    (hsel : ∀ sid ∈ s.selectedObjectIds, sid ≠ k)
    (hobj : ∀ o ∈ s.objects, o.id ≠ k)
    (href : ∀ o ∈ s.objects, refBy k o.source = false ∧ refBy k o.target = false) :
    deleteObject k s = s := by
  have h1 : (s.objects.filter (fun o =>
      if o.id == k then false
      else if o.type == ObjType.connector && (refBy k o.source || refBy k o.target) then false
      else true)) = s.objects := by
    apply List.filter_eq_self.mpr
    intro o ho
    have hne : (o.id == k) = false := by simp [hobj o ho]
    simp [hne, (href o ho).1, (href o ho).2]
  have h2 : (s.selectedObjectIds.filter (fun sid => sid != k)) = s.selectedObjectIds := by
    apply List.filter_eq_self.mpr
    intro sid hsid
    simp [hsel sid hsid]
  unfold deleteObject
  rw [h1, h2]

/-- Witness for C7 amended at a concrete input. -/
theorem c7_idempotent_delete_witness :
    deleteObject "z" (addObject noteA initialState) = addObject noteA initialState :=
  c7_idempotent_delete (addObject noteA initialState) "z"
    (by decide) (by decide) (by decide)

/-- C8 counterexample: pasteClipboard does NOT drop a clipboard connector whose
endpoints are outside the batch — it clones it, keeping the original endpoint
object ids (the idMap fallback), so a clone does appear. -/
theorem c8_counterexample :
    (pasteClipboard (fun _ => "n") c8state).objects = [{ connAB with id := "n" }] := by
  decide

/-- C1 counterexample: the no-dangling-connector condition is not an invariant
of every mutation — addObject appends without validation, so adding a connector
whose endpoints reference absent ids yields a post-mutation object sequence
containing a dangling connector. -/
theorem c1_counterexample :
    danglingFree ((addObject connAB initialState).objects) = false := by
  decide

/-! C1: cascade delete. -/

theorem deleteObject_removes (s : BoardState) (a : String) (c : BoardObject)
    (hconn : c.type = ObjType.connector)
    (href : (refBy a c.source || refBy a c.target) = true) :
    c ∉ (deleteObject a s).objects ∧ ∀ o ∈ (deleteObject a s).objects, o.id ≠ a := by
  constructor
  · intro hmem
    simp only [deleteObject, List.mem_filter] at hmem
    rcases hmem with ⟨-, hp⟩
    have hB : (c.type == ObjType.connector && (refBy a c.source || refBy a c.target)) = true := by
      simp [hconn, href]
    simp [hB] at hp
  · intro o ho heq
    simp only [deleteObject, List.mem_filter] at ho
    rcases ho with ⟨-, hp⟩
    simp [heq] at hp

theorem deleteSelectedObjects_removes (s : BoardState) (a : String) (c : BoardObject)
    (hconn : c.type = ObjType.connector)
    (href : (refBy a c.source || refBy a c.target) = true)
    (ha : a ∈ s.selectedObjectIds) :
    c ∉ (deleteSelectedObjects s).objects
      ∧ ∀ o ∈ (deleteSelectedObjects s).objects, o.id ≠ a := by
  have hne : s.selectedObjectIds ≠ [] := List.ne_nil_of_mem ha
  have hcasc : (inclStr s.selectedObjectIds (endpointId c.source)
      || inclStr s.selectedObjectIds (endpointId c.target)) = true := by
    rcases (by simpa using href : refBy a c.source = true ∨ refBy a c.target = true) with h | h
    · rw [refBy_endpointId h]
      simp [(inclStr_iff _ _).mpr ha]
    · rw [refBy_endpointId h]
      simp [(inclStr_iff _ _).mpr ha]
  have hB : (c.type == ObjType.connector
      && (inclStr s.selectedObjectIds (endpointId c.source)
          || inclStr s.selectedObjectIds (endpointId c.target))) = true := by
    simp [hconn, hcasc]
  constructor
  · intro hmem
    simp only [deleteSelectedObjects, if_neg hne, List.mem_filter] at hmem
    rcases hmem with ⟨-, hp⟩
    simp [hB] at hp
  · intro o ho heq
    have hA : inclStr s.selectedObjectIds o.id = true := by
      rw [heq]; exact (inclStr_iff _ _).mpr ha
    simp only [deleteSelectedObjects, if_neg hne, List.mem_filter] at ho
    rcases ho with ⟨-, hp⟩
    simp [hA] at hp

theorem cutSelection_removes (s : BoardState) (a : String) (c : BoardObject)
    (hconn : c.type = ObjType.connector)
    (href : (refBy a c.source || refBy a c.target) = true)
    (ha : a ∈ s.selectedObjectIds) :
    c ∉ (cutSelection s).objects ∧ ∀ o ∈ (cutSelection s).objects, o.id ≠ a := by
  have hne : s.selectedObjectIds ≠ [] := List.ne_nil_of_mem ha
  have hcasc : (inclStr s.selectedObjectIds (endpointId c.source)
      || inclStr s.selectedObjectIds (endpointId c.target)) = true := by
    rcases (by simpa using href : refBy a c.source = true ∨ refBy a c.target = true) with h | h
    · rw [refBy_endpointId h]
      simp [(inclStr_iff _ _).mpr ha]
    · rw [refBy_endpointId h]
      simp [(inclStr_iff _ _).mpr ha]
  have hB : (c.type == ObjType.connector
      && (inclStr s.selectedObjectIds (endpointId c.source)
          || inclStr s.selectedObjectIds (endpointId c.target))) = true := by
    simp [hconn, hcasc]
  constructor
  · intro hmem
    simp only [cutSelection, if_neg hne, List.mem_filter] at hmem
    rcases hmem with ⟨-, hp⟩
    simp [hB] at hp
  · intro o ho heq
    simp only [cutSelection, if_neg hne, List.mem_filter] at ho
    rcases ho with ⟨hoin, hp⟩
    have hosel : inclStr s.selectedObjectIds o.id = true := by
      rw [heq]; exact (inclStr_iff _ _).mpr ha
    have hA : inclStr ((s.objects.filter (fun o => inclStr s.selectedObjectIds o.id)
        ++ implicitConnectors s.selectedObjectIds s.objects).map (fun o => o.id)) o.id
          = true := by
      apply (inclStr_iff _ _).mpr
      exact List.mem_map_of_mem _
        (List.mem_append_left _ (List.mem_filter.mpr ⟨hoin, hosel⟩))
    simp only [hA] at hp
    simp at hp

/-- C1 amended: the cascade half of the claim holds — deleteObject(A), and
deleteSelectedObjects / cutSelection with A in the selection, remove in the same
single mutation both the object with id A and every connector whose source or
target references A.  The second half is false (see the counterexample):
"no dangling connector after every mutation" is not an invariant, since
addObject, setObjects and pasteClipboard perform no endpoint validation. -/
theorem c1_cascade_delete (s : BoardState) (a : String) (c : BoardObject)
    (hconn : c.type = ObjType.connector)
    (href : (refBy a c.source || refBy a c.target) = true) :
    (c ∉ (deleteObject a s).objects ∧ ∀ o ∈ (deleteObject a s).objects, o.id ≠ a)
    ∧ (a ∈ s.selectedObjectIds →
        c ∉ (deleteSelectedObjects s).objects
          ∧ ∀ o ∈ (deleteSelectedObjects s).objects, o.id ≠ a)
    ∧ (a ∈ s.selectedObjectIds →
        c ∉ (cutSelection s).objects ∧ ∀ o ∈ (cutSelection s).objects, o.id ≠ a) :=
  ⟨deleteObject_removes s a c hconn href,
   fun ha => deleteSelectedObjects_removes s a c hconn href ha,
   fun ha => cutSelection_removes s a c hconn href ha⟩

/-- Witness for C1 amended at a concrete input. -/
theorem c1_cascade_delete_witness :
    connAB ∉ (deleteObject "a" c1state).objects
    ∧ connAB ∉ (cutSelection c1state).objects := by
  have h := c1_cascade_delete c1state "a" connAB rfl (by decide)
  exact ⟨h.1.1, (h.2.2 (by decide)).1⟩

/-! C8: connector handling in paste/duplicate batches. -/

theorem cloneNonConn_countP_connector (uuid : Nat → String) (offset : Int)
    (l : List BoardObject) (k : Nat) :
    (cloneNonConn uuid offset l k).2.countP (fun o => o.type == ObjType.connector) = 0 := by
  induction l generalizing k with
  | nil => rfl
  | cons o rest ih =>
    by_cases h : (o.type == ObjType.connector) = true
    · simp [cloneNonConn, h, ih]
    · simp [cloneNonConn, h, ih, List.countP_cons]

theorem cloneConn_length (uuid : Nat → String) (m : List (String × String))
    (l : List BoardObject) (k : Nat) :
    (cloneConn uuid m l k).length
      = l.countP (fun o =>
          o.type == ObjType.connector && o.source.isSome && o.target.isSome) := by
  induction l generalizing k with
  | nil => rfl
  | cons o rest ih =>
    by_cases h : (o.type == ObjType.connector) = true
    · cases hs : o.source with
      | none => simp [cloneConn, h, hs, ih, List.countP_cons]
      | some es =>
        cases ht : o.target with
        | none => simp [cloneConn, h, hs, ht, ih, List.countP_cons]
        | some et => simp [cloneConn, h, hs, ht, ih, List.countP_cons]
    · simp [cloneConn, h, ih, List.countP_cons]

theorem cloneConn_countP_connector (uuid : Nat → String) (m : List (String × String))
    (l : List BoardObject) (k : Nat) :
    (cloneConn uuid m l k).countP (fun o => o.type == ObjType.connector)
      = (cloneConn uuid m l k).length := by
  induction l generalizing k with
  | nil => rfl
  | cons o rest ih =>
    by_cases h : (o.type == ObjType.connector) = true
    · cases hs : o.source with
      | none => simp [cloneConn, h, hs, ih]
      | some es =>
        cases ht : o.target with
        | none => simp [cloneConn, h, hs, ht, ih]
        | some et => simp [cloneConn, h, hs, ht, ih, List.countP_cons]
    · simp [cloneConn, h, ih]

/-- C8 amended: duplicateSelection clones a connector only when it is an
implicit connector of the batch (itself unselected, both endpoints selected), so
a selected connector with an endpoint outside the selection is silently dropped;
pasteClipboard, however, drops nothing of the kind: every clipboard connector
with both endpoint fields present is cloned (endpoints remapped through the
batch id map, falling back to the original object id when the endpoint is not in
the batch), and only connectors missing an endpoint field are dropped. -/
theorem c8_connector_batch_amended (uuid : Nat → String) (s : BoardState)
    (hsel : s.selectedObjectIds ≠ []) (hclip : s.clipboard ≠ []) :
    ((duplicateSelection uuid s).objects.countP (fun o => o.type == ObjType.connector)
      = s.objects.countP (fun o => o.type == ObjType.connector)
        + (implicitConnectors s.selectedObjectIds s.objects).countP
            (fun o => o.type == ObjType.connector && o.source.isSome && o.target.isSome))
    ∧ ((pasteClipboard uuid s).objects.countP (fun o => o.type == ObjType.connector)
      = s.objects.countP (fun o => o.type == ObjType.connector)
        + s.clipboard.countP
            (fun o => o.type == ObjType.connector && o.source.isSome && o.target.isSome)) := by
  constructor
  · simp [duplicateSelection, if_neg hsel, List.countP_append,
      cloneNonConn_countP_connector, cloneConn_countP_connector, cloneConn_length]
  · simp [pasteClipboard, if_neg hclip, List.countP_append,
      cloneNonConn_countP_connector, cloneConn_countP_connector, cloneConn_length]

/-- Witness for C8 amended at a concrete input. -/
theorem c8_connector_batch_amended_witness :
    ((duplicateSelection (fun _ => "n") c8wstate).objects.countP
        (fun o => o.type == ObjType.connector)
      = c8wstate.objects.countP (fun o => o.type == ObjType.connector)
        + (implicitConnectors c8wstate.selectedObjectIds c8wstate.objects).countP
            (fun o => o.type == ObjType.connector && o.source.isSome && o.target.isSome))
    ∧ ((pasteClipboard (fun _ => "n") c8wstate).objects.countP
        (fun o => o.type == ObjType.connector)
      = c8wstate.objects.countP (fun o => o.type == ObjType.connector)
        + c8wstate.clipboard.countP
            (fun o => o.type == ObjType.connector && o.source.isSome && o.target.isSome)) :=
  c8_connector_batch_amended (fun _ => "n") c8wstate (by decide) (by decide)

/-! C6: paste offset accumulation. -/

theorem cloneConn_nil_of_nonConn (uuid : Nat → String) (m : List (String × String))
    (l : List BoardObject) (k : Nat)
    (h : ∀ o ∈ l, (o.type == ObjType.connector) = false) :
    cloneConn uuid m l k = [] := by
  induction l generalizing k with
  | nil => rfl
  | cons o rest ih =>
    have ho := h o (List.mem_cons_self o rest)
    simp only [cloneConn, ho]
    simp
    exact ih _ fun o' ho' => h o' (List.mem_cons_of_mem _ ho')

theorem cloneNonConn_pos (uuid : Nat → String) (offset : Int)
    (l : List BoardObject) (k : Nat)
    (h : ∀ o ∈ l, (o.type == ObjType.connector) = false) :
    (cloneNonConn uuid offset l k).2.map (fun o => (o.x, o.y))
      = l.map (fun o => (o.x + offset, o.y + offset)) := by
  induction l generalizing k with
  | nil => rfl
  | cons o rest ih =>
    have ho := h o (List.mem_cons_self o rest)
    simp only [cloneNonConn, ho]
    simp [ih _ fun o' ho' => h o' (List.mem_cons_of_mem _ ho')]

theorem cloneNonConn_posmap (uuid : Nat → String) (offset d : Int)
    (l : List BoardObject) (k : Nat)
    (h : ∀ o ∈ l, (o.type == ObjType.connector) = false) :
    (cloneNonConn uuid offset l k).2.map (fun o => (o.x + d, o.y + d))
      = l.map (fun o => (o.x + offset + d, o.y + offset + d)) := by
  induction l generalizing k with
  | nil => rfl
  | cons o rest ih =>
    have ho := h o (List.mem_cons_self o rest)
    simp only [cloneNonConn, ho]
    simp [ih _ fun o' ho' => h o' (List.mem_cons_of_mem _ ho')]

/-- Unfolding of a copy-mode paste of an all-non-connector clipboard: the clones
are appended and selected, the paste counter is bumped, and the clipboard and its
mode persist. -/
theorem pasteClipboard_copy (uuid : Nat → String) (s : BoardState)
    (hm : s.clipboardMode = some ClipMode.copy) (hne : s.clipboard ≠ [])
    (hnc : ∀ o ∈ s.clipboard, (o.type == ObjType.connector) = false) :
    pasteClipboard uuid s = { s with
      objects := s.objects
        ++ (cloneNonConn uuid (((s.pasteCount : Int) + 1) * 20) s.clipboard 0).2
      selectedObjectIds :=
        (cloneNonConn uuid (((s.pasteCount : Int) + 1) * 20) s.clipboard 0).2.map
          (fun o => o.id)
      pasteCount := s.pasteCount + 1 } := by
  have hcut : ¬ s.clipboardMode = some ClipMode.cut := by rw [hm]; simp
  have hconn0 : cloneConn uuid
      (cloneNonConn uuid (((s.pasteCount : Int) + 1) * 20) s.clipboard 0).1 s.clipboard
      (cloneNonConn uuid (((s.pasteCount : Int) + 1) * 20) s.clipboard 0).2.length
        = [] := cloneConn_nil_of_nonConn _ _ _ _ hnc
  rw [pasteClipboard, if_neg hne]
  simp [hconn0, if_neg hcut]

/-- C6: pasting a copy-sourced clipboard (of non-connector objects) twice
appends two clone groups, the first at offset (+20,+20) from the originals, the
second at (+40,+40), i.e. one step apart from each other; after the second paste
exactly the second group's ids are selected. -/
theorem c6_paste_offset_accumulation (u1 u2 : Nat → String) (s : BoardState)
    (hm : s.clipboardMode = some ClipMode.copy)
    (hp : s.pasteCount = 0)
    (hne : s.clipboard ≠ [])
    (hnc : ∀ o ∈ s.clipboard, (o.type == ObjType.connector) = false) :
    ((pasteClipboard u1 s).objects
        = s.objects ++ (cloneNonConn u1 20 s.clipboard 0).2)
    ∧ ((pasteClipboard u2 (pasteClipboard u1 s)).objects
        = s.objects ++ (cloneNonConn u1 20 s.clipboard 0).2
            ++ (cloneNonConn u2 40 s.clipboard 0).2)
    ∧ ((pasteClipboard u2 (pasteClipboard u1 s)).selectedObjectIds
        = (cloneNonConn u2 40 s.clipboard 0).2.map (fun o => o.id))
    ∧ ((cloneNonConn u1 20 s.clipboard 0).2.map (fun o => (o.x, o.y))
        = s.clipboard.map (fun o => (o.x + 20, o.y + 20)))
    ∧ ((cloneNonConn u2 40 s.clipboard 0).2.map (fun o => (o.x, o.y))
        = s.clipboard.map (fun o => (o.x + 40, o.y + 40)))
    ∧ ((cloneNonConn u2 40 s.clipboard 0).2.map (fun o => (o.x, o.y))
        = (cloneNonConn u1 20 s.clipboard 0).2.map (fun o => (o.x + 20, o.y + 20))) := by
  have e1 : pasteClipboard u1 s = { s with
      objects := s.objects ++ (cloneNonConn u1 20 s.clipboard 0).2
      selectedObjectIds := (cloneNonConn u1 20 s.clipboard 0).2.map (fun o => o.id)
      pasteCount := 1 } := by
    rw [pasteClipboard_copy u1 s hm hne hnc, hp]
    norm_num
  have hm1 : (pasteClipboard u1 s).clipboardMode = some ClipMode.copy := by rw [e1]; exact hm
  have hne1 : (pasteClipboard u1 s).clipboard ≠ [] := by rw [e1]; exact hne
  have hnc1 : ∀ o ∈ (pasteClipboard u1 s).clipboard,
      (o.type == ObjType.connector) = false := by rw [e1]; exact hnc
  have hpc1 : (pasteClipboard u1 s).pasteCount = 1 := by rw [e1]
  have e2 : pasteClipboard u2 (pasteClipboard u1 s) = { s with
      objects := s.objects ++ (cloneNonConn u1 20 s.clipboard 0).2
        ++ (cloneNonConn u2 40 s.clipboard 0).2
      selectedObjectIds := (cloneNonConn u2 40 s.clipboard 0).2.map (fun o => o.id)
      pasteCount := 2 } := by
    rw [pasteClipboard_copy u2 _ hm1 hne1 hnc1, hpc1, e1]
    norm_num
  refine ⟨by rw [e1], by rw [e2], by rw [e2],
    cloneNonConn_pos u1 20 s.clipboard 0 hnc,
    cloneNonConn_pos u2 40 s.clipboard 0 hnc, ?_⟩
  rw [cloneNonConn_pos u2 40 s.clipboard 0 hnc,
    cloneNonConn_posmap u1 20 20 s.clipboard 0 hnc]
  have hfun : (fun o : BoardObject => (o.x + (40 : Int), o.y + 40))
      = (fun o : BoardObject => (o.x + 20 + 20, o.y + 20 + 20)) := by
    funext o
    norm_num [add_assoc]
  rw [hfun]

/-- Witness for C6 at a concrete input. -/
theorem c6_paste_offset_accumulation_witness :
    ((pasteClipboard (fun _ => "q") (pasteClipboard (fun _ => "p") c6state)).objects
        = c6state.objects ++ (cloneNonConn (fun _ => "p") 20 c6state.clipboard 0).2
            ++ (cloneNonConn (fun _ => "q") 40 c6state.clipboard 0).2)
    ∧ ((cloneNonConn (fun _ => "q") 40 c6state.clipboard 0).2.map (fun o => (o.x, o.y))
        = (cloneNonConn (fun _ => "p") 20 c6state.clipboard 0).2.map
            (fun o => (o.x + 20, o.y + 20))) := by
  have h := c6_paste_offset_accumulation (fun _ => "p") (fun _ => "q") c6state
    rfl rfl (by decide) (by decide)
  exact ⟨h.2.1, h.2.2.2.2.2⟩

/-! C2: the selection subset invariant. -/

theorem selInv_iff (s : BoardState) :
    selInv s = true ↔ ∀ sid ∈ s.selectedObjectIds, ∃ o ∈ s.objects, o.id = sid := by
  simp [selInv, hasId, List.all_eq_true, List.any_eq_true]

theorem selInv_step (op : Op) (s : BoardState)
    (hinv : selInv s = true) (hok : opOk op s = true) :
    selInv (applyOp op s) = true := by
  rw [selInv_iff] at hinv
  rw [selInv_iff]
  cases op with
  | add o =>
    simp only [applyOp, addObject]
    intro sid hsid
    rcases hinv sid hsid with ⟨o', ho', hid⟩
    exact ⟨o', List.mem_append_left _ ho', hid⟩
  | update id u =>
    simp only [applyOp, updateObject]
    intro sid hsid
    rcases hinv sid hsid with ⟨o', ho', hid⟩
    have hu : u.id = none ∨ u.id = some id := by simpa [opOk] using hok
    have hid' : ((if o'.id == id then applyUpdates o' u else o')).id = o'.id := by
      by_cases h : (o'.id == id) = true
      · rcases hu with hu | hu
        · simp [h, applyUpdates, hu]
        · simp [h, applyUpdates, hu]
          exact ((by simpa using h : o'.id = id)).symm
      · simp [h]
    exact ⟨_, List.mem_map_of_mem _ ho', by rw [hid', hid]⟩
  | delete id =>
    simp only [applyOp, deleteObject]
    have hok' : ∀ o ∈ s.objects,
        (inclStr s.selectedObjectIds o.id && (o.type == ObjType.connector)
          && (refBy id o.source || refBy id o.target)) = false := by
      intro o ho
      have h2 := (List.all_eq_true.mp hok) o ho
      cases hA : (inclStr s.selectedObjectIds o.id && (o.type == ObjType.connector)
          && (refBy id o.source || refBy id o.target)) with
      | false => rfl
      | true => rw [hA] at h2; exact absurd h2 (by decide)
    intro sid hsid
    rw [List.mem_filter] at hsid
    rcases hsid with ⟨hsid, hne⟩
    have hne' : sid ≠ id := by simpa using hne
    rcases hinv sid hsid with ⟨o', ho', hid⟩
    refine ⟨o', List.mem_filter.mpr ⟨ho', ?_⟩, hid⟩
    have h1 : (o'.id == id) = false := by simp [hid, hne']
    have hincl : inclStr s.selectedObjectIds o'.id = true := by
      rw [hid]; exact (inclStr_iff _ _).mpr hsid
    cases hb : (o'.type == ObjType.connector) with
    | false => simp [h1, hb]
    | true =>
      cases hc : (refBy id o'.source || refBy id o'.target) with
      | false => simp [h1, hb, hc]
      | true =>
        have := hok' o' ho'
        rw [hincl, hb, hc] at this
        simp at this
  | deleteSelected =>
    simp only [applyOp, deleteSelectedObjects]
    by_cases h : s.selectedObjectIds = []
    · rw [if_pos h]; exact hinv
    · rw [if_neg h]
      intro sid hsid
      simp at hsid
  | select id m =>
    simp only [applyOp, selectObject]
    have hex : ∃ o ∈ s.objects, o.id = id := by
      simpa [opOk, hasId, List.any_eq_true] using hok
    cases m with
    | false =>
      intro sid hsid
      simp at hsid
      subst hsid
      exact hex
    | true =>
      by_cases hmem : inclStr s.selectedObjectIds id = true
      · simp only [hmem, if_true, if_pos]
        intro sid hsid
        rw [List.mem_filter] at hsid
        exact hinv sid hsid.1
      · simp only [Bool.not_eq_true] at hmem
        simp only [hmem, if_true, Bool.false_eq_true, if_false]
        intro sid hsid
        rcases List.mem_append.mp hsid with hl | hr
        · exact hinv sid hl
        · have : sid = id := by simpa using hr
          subst this
          exact hex
  | setSelection ids =>
    simp only [applyOp, setSelectedObjectIds]
    intro sid hsid
    have := (List.all_eq_true.mp hok) sid hsid
    simpa [hasId, List.any_eq_true] using this
  | clearSel =>
    simp only [applyOp, clearSelection]
    intro sid hsid
    simp at hsid
  | copy =>
    simp only [applyOp, copySelection]
    by_cases h : s.selectedObjectIds = []
    · rw [if_pos h]; exact hinv
    · rw [if_neg h]; exact hinv
  | cut =>
    simp only [applyOp, cutSelection]
    by_cases h : s.selectedObjectIds = []
    · rw [if_pos h]; exact hinv
    · rw [if_neg h]
      intro sid hsid
      simp at hsid
  | paste uuid =>
    by_cases h : s.clipboard = []
    · simp only [applyOp, pasteClipboard, if_pos h]
      exact hinv
    · simp only [applyOp, pasteClipboard, if_neg h]
      intro sid hsid
      rw [List.mem_map] at hsid
      rcases hsid with ⟨o, ho, hid⟩
      exact ⟨o, List.mem_append_right _ ho, hid⟩
  | duplicate uuid =>
    by_cases h : s.selectedObjectIds = []
    · simp only [applyOp, duplicateSelection, if_pos h]
      exact hinv
    · simp only [applyOp, duplicateSelection, if_neg h]
      intro sid hsid
      rw [List.mem_map] at hsid
      rcases hsid with ⟨o, ho, hid⟩
      exact ⟨o, List.mem_append_right _ ho, hid⟩
  | clearObjs =>
    simp only [applyOp, clearObjects]
    intro sid hsid
    simp at hsid
  | rearrange ps =>
    simp only [applyOp, rearrangeObjects]
    intro sid hsid
    rcases hinv sid hsid with ⟨o', ho', hid⟩
    refine ⟨_, List.mem_map_of_mem _ ho', ?_⟩
    cases hfind : ps.find? (fun p => p.1 == o'.id) with
    | none => simpa [hfind] using hid
    | some p => simpa [hfind] using hid
  | setObjs objs =>
    simp only [applyOp, setObjects]
    intro sid hsid
    have := (List.all_eq_true.mp hok) sid hsid
    simpa [hasId, List.any_eq_true] using this

/-- C2 counterexample: selectObject performs no existence check, so selecting a
nonexistent id from the initial state leaves a selection id with no object. -/
theorem c2_counterexample :
    selInv (applyOps [Op.select "x" false] initialState) = false := by
  decide

/-- C2 amended: after any sequence of public mutation calls, every selected id
is the id of an existing object, provided each selectObject / setSelectedObjectIds
call references only existing ids, each remote setObjects payload retains all
currently selected ids, updateObject is not used to rewrite an id to a different
one, and deleteObject(id) is not applied while a selected connector references
id; without those provisos the invariant fails (see the counterexample). -/
theorem c2_selection_subset_amended (l : List Op) (s : BoardState)
    (hinv : selInv s = true) (hok : seqOk s l = true) :
    selInv (applyOps l s) = true := by
  induction l generalizing s with
  | nil => exact hinv
  | cons op l ih =>
    rw [seqOk, Bool.and_eq_true] at hok
    exact ih _ (selInv_step op s hinv hok.1) hok.2

/-- Witness for C2 amended at a concrete call sequence. -/
theorem c2_selection_subset_amended_witness :
    selInv (applyOps
      [Op.add noteA, Op.add rectB, Op.select "a" false, Op.select "b" true, Op.delete "a"]
      initialState) = true :=
  c2_selection_subset_amended
    [Op.add noteA, Op.add rectB, Op.select "a" false, Op.select "b" true, Op.delete "a"]
    initialState (by decide) (by decide)

/-! C4: remote replace — no debounce arm, no history entries. -/

/-- C4: the sync bridge's remote replace (pause; setObjects(payload); resume)
never arms the persistence debounce timer (setObjects does not schedule a sync),
pushes zero entries onto either history stack while replacing the object
sequence with the payload; an equivalent replace made while recording is armed
pushes exactly one entry — the previous object sequence — onto the (depth
limited) past stack. -/
theorem c4_remote_replace_suppression (payload : List BoardObject) (s : HistState) :
    (∀ b : BoardState, armsSync (Op.setObjs payload) b = false)
    ∧ ((remoteReplace payload s).hist.pastStates = s.hist.pastStates)
    ∧ ((remoteReplace payload s).hist.futureStates = s.hist.futureStates)
    ∧ ((remoteReplace payload s).board.objects = payload)
    ∧ (s.hist.tracking = true →
        (applyOpH (Op.setObjs payload) s).hist.pastStates
          = (s.board.objects :: s.hist.pastStates).take histLimit
        ∧ (applyOpH (Op.setObjs payload) s).board.objects = payload) := by
  refine ⟨fun b => rfl, ?_, ?_, ?_, ?_⟩
  · simp [remoteReplace, pauseH, resumeH, applyOpH, touchesObjects, applyOp, setObjects]
  · simp [remoteReplace, pauseH, resumeH, applyOpH, touchesObjects, applyOp, setObjects]
  · simp [remoteReplace, pauseH, resumeH, applyOpH, touchesObjects, applyOp, setObjects]
  · intro htr
    constructor
    · simp [applyOpH, touchesObjects, htr, applyOp, setObjects]
    · simp [applyOpH, touchesObjects, htr, applyOp, setObjects]

/-- Witness for C4 at a concrete input. -/
theorem c4_remote_replace_suppression_witness :
    ((remoteReplace [noteA] initialHist).hist.pastStates = initialHist.hist.pastStates)
    ∧ ((applyOpH (Op.setObjs [noteA]) initialHist).hist.pastStates
        = (initialHist.board.objects :: initialHist.hist.pastStates).take histLimit) := by
  have h := c4_remote_replace_suppression [noteA] initialHist
  exact ⟨h.2.1, (h.2.2.2.2 rfl).1⟩

/-! C5: debounce coalescing. -/

theorem runEvents_dense (es : List (Nat × Op)) :
    ∀ (tr : SyncTrace) (tprev : Nat),
      tr.pending = some (tprev + 600) →
      dense600 tprev es = true →
      allArm tr.state es = true →
      (runEvents tr es).writes = tr.writes
      ∧ (runEvents tr es).state = applyOps (es.map Prod.snd) tr.state
      ∧ (runEvents tr es).pending = some ((es.map Prod.fst).getLastD tprev + 600) := by
  induction es with
  | nil =>
    intro tr tprev hp _ _
    exact ⟨rfl, rfl, by simpa using hp⟩
  | cons ev rest ih =>
    intro tr tprev hp hd ha
    obtain ⟨t, op⟩ := ev
    have hd' : (decide (tprev ≤ t) && decide (t < tprev + 600) && dense600 t rest) = true := hd
    rw [Bool.and_eq_true, Bool.and_eq_true] at hd'
    obtain ⟨⟨hd1, hd2⟩, hd3⟩ := hd'
    have hlt : t < tprev + 600 := of_decide_eq_true hd2
    have ha' : (armsSync op tr.state && allArm (applyOp op tr.state) rest) = true := ha
    rw [Bool.and_eq_true] at ha'
    obtain ⟨ha1, ha2⟩ := ha'
    have hfire : fireIfDue t tr = tr := by
      simp [fireIfDue, hp, Nat.not_le.mpr hlt]
    have hstep : stepEvent tr (t, op) =
        { state := applyOp op tr.state, pending := some (t + 600), writes := tr.writes } := by
      simp [stepEvent, hfire, ha1]
    simp only [runEvents, hstep]
    have h := ih { state := applyOp op tr.state, pending := some (t + 600), writes := tr.writes }
      t rfl hd3 ha2
    refine ⟨h.1, h.2.1, ?_⟩
    rw [h.2.2, List.map_cons, List.getLastD_cons]

/-- C5: K mutating calls, each arming the debounce and each issued strictly
within 600 ms of its predecessor, produce exactly one remote write: it fires
600 ms after the Kth call and its payload is the entire object sequence of the
state after the Kth call. -/
theorem c5_debounce_coalescing (s0 : BoardState) (bid : String) (t0 : Nat) (op0 : Op)
    (es : List (Nat × Op))
    (hb : s0.boardId = some bid)
    (hd : dense600 t0 es = true)
    (ha : allArm s0 ((t0, op0) :: es) = true) :
    (flushTrace (runEvents { state := s0, pending := none, writes := [] }
        ((t0, op0) :: es))).writes
      = [((es.map Prod.fst).getLastD t0 + 600, bid,
          (applyOps (((t0, op0) :: es).map Prod.snd) s0).objects)] := by
  have ha' : (armsSync op0 s0 && allArm (applyOp op0 s0) es) = true := ha
  rw [Bool.and_eq_true] at ha'
  obtain ⟨ha1, ha2⟩ := ha'
  have hstep : stepEvent { state := s0, pending := none, writes := [] } (t0, op0) =
      { state := applyOp op0 s0, pending := some (t0 + 600), writes := [] } := by
    simp [stepEvent, fireIfDue, ha1]
  have hrun := runEvents_dense es
    { state := applyOp op0 s0, pending := some (t0 + 600), writes := [] } t0 rfl hd ha2
  obtain ⟨hw, hs, hpend⟩ := hrun
  have hbid : (applyOps (List.map Prod.snd es) (applyOp op0 s0)).boardId = some bid := by
    rw [applyOps_boardId, applyOp_boardId, hb]
  simp only [runEvents, hstep]
  simp [flushTrace, fireIfDue, hpend, hw, hs, hbid, syncToDatabase, applyOps]

/-- Witness for C5 at a concrete burst of two calls 100 ms apart. -/
theorem c5_debounce_coalescing_witness :
    (flushTrace (runEvents { state := c5init, pending := none, writes := [] }
        [(0, Op.add noteA), (100, Op.add rectB)])).writes
      = [(700, "board1", (applyOps [Op.add noteA, Op.add rectB] c5init).objects)] := by
  have h := c5_debounce_coalescing c5init "board1" 0 (Op.add noteA) [(100, Op.add rectB)]
    rfl (by decide) (by decide)
  simpa using h

/-! C3: undo/redo round trip. -/

theorem take_append_take {α : Type} (k : Nat) (A B : List α) :
    (A ++ B.take k).take k = (A ++ B).take k := by
  rw [List.take_append_eq_append_take, List.take_append_eq_append_take, List.take_take]
  rw [Nat.min_eq_left (Nat.sub_le k A.length)]

theorem applyOpH_board (op : Op) (s : HistState) :
    (applyOpH op s).board = applyOp op s.board := by
  simp only [applyOpH]
  split <;> rfl

theorem applyOpsH_board (l : List Op) :
    ∀ s : HistState, (applyOpsH l s).board = applyOps l s.board := by
  induction l with
  | nil => intro s; rfl
  | cons op l ih =>
    intro s
    simp only [applyOpsH, applyOps]
    rw [ih, applyOpH_board]

theorem objTrace_length (l : List Op) : ∀ s, (objTrace l s).length = l.length := by
  induction l with
  | nil => intro s; rfl
  | cons op l ih => intro s; simp [objTrace, ih]

theorem applyOpsH_hist (l : List Op) :
    ∀ s : HistState, s.hist.tracking = true → allTouch s l = true → l ≠ [] →
      (applyOpsH l s).hist.pastStates
          = (objTrace l s ++ s.hist.pastStates).take histLimit
        ∧ (applyOpsH l s).hist.futureStates = []
        ∧ (applyOpsH l s).hist.tracking = true := by
  induction l with
  | nil => intro s _ _ hne; exact absurd rfl hne
  | cons op rest ih =>
    intro s htr ht _
    have ht' : (touchesObjects op s.board && allTouch (applyOpH op s) rest) = true := ht
    rw [Bool.and_eq_true] at ht'
    obtain ⟨ht1, ht2⟩ := ht'
    have hstep : applyOpH op s = ⟨applyOp op s.board,
        ⟨(s.board.objects :: s.hist.pastStates).take histLimit, [], s.hist.tracking⟩⟩ := by
      simp [applyOpH, htr, ht1]
    cases rest with
    | nil =>
      refine ⟨?_, ?_, ?_⟩
      · show (applyOpH op s).hist.pastStates
            = (objTrace [op] s ++ s.hist.pastStates).take histLimit
        rw [hstep]
        simp [objTrace]
      · show (applyOpH op s).hist.futureStates = []
        rw [hstep]
      · show (applyOpH op s).hist.tracking = true
        rw [hstep]
        exact htr
    | cons op2 rest2 =>
      have htr1 : (applyOpH op s).hist.tracking = true := by rw [hstep]; exact htr
      obtain ⟨hp, hf, htk⟩ := ih (applyOpH op s) htr1 ht2 (by simp)
      refine ⟨?_, hf, htk⟩
      show (applyOpsH (op2 :: rest2) (applyOpH op s)).hist.pastStates
          = (objTrace (op :: op2 :: rest2) s ++ s.hist.pastStates).take histLimit
      rw [hp]
      rw [show objTrace (op :: op2 :: rest2) s
          = objTrace (op2 :: rest2) (applyOpH op s) ++ [s.board.objects] from rfl]
      rw [List.append_assoc]
      rw [show (applyOpH op s).hist.pastStates
          = ([s.board.objects] ++ s.hist.pastStates).take histLimit from by rw [hstep]; rfl]
      rw [take_append_take]

theorem undoN_restore :
    ∀ (stack : List (List BoardObject)) (x : List BoardObject)
      (rest : List (List BoardObject)) (s : HistState),
      s.hist.pastStates = stack ++ x :: rest →
      (undoN (stack.length + 1) s).board.objects = x := by
  intro stack
  induction stack with
  | nil =>
    intro x rest s hp
    simp [undoN, undoH, hp]
  | cons a stack ih =>
    intro x rest s hp
    have hstep : undoH s = ⟨{ s.board with objects := a },
        ⟨stack ++ x :: rest, s.board.objects :: s.hist.futureStates, s.hist.tracking⟩⟩ := by
      simp [undoH, hp]
    show (undoN (stack.length + 1) (undoH s)).board.objects = x
    rw [hstep]
    exact ih x rest _ rfl

theorem redo_undo (s : HistState) (h : s.hist.pastStates ≠ []) : redoH (undoH s) = s := by
  obtain ⟨board, hist⟩ := s
  obtain ⟨past, future, tracking⟩ := hist
  cases past with
  | nil => exact absurd rfl h
  | cons p rest => simp [undoH, redoH]

theorem redoN_undoN (n : Nat) :
    ∀ s : HistState, n ≤ s.hist.pastStates.length → redoN n (undoN n s) = s := by
  induction n with
  | zero => intro s _; rfl
  | succ n ih =>
    intro s h
    have hne : s.hist.pastStates ≠ [] := by
      intro he
      rw [he] at h
      simp at h
    obtain ⟨p, rest, hp⟩ : ∃ p rest, s.hist.pastStates = p :: rest := by
      cases hpp : s.hist.pastStates with
      | nil => exact absurd hpp hne
      | cons p rest => exact ⟨p, rest, rfl⟩
    have hlen : n ≤ (undoH s).hist.pastStates.length := by
      have he : (undoH s).hist.pastStates = rest := by simp [undoH, hp]
      rw [he]
      rw [hp] at h
      simpa using Nat.le_of_succ_le_succ h
    show redoH (redoN n (undoN n (undoH s))) = s
    rw [ih (undoH s) hlen]
    exact redo_undo s hne

/-- C3: for a sequence of N mutating calls (each changing the objects array
reference, recording armed, N within the depth limit), N undos restore the
object sequence to its pre-sequence value, N redos then restore the
post-sequence state exactly; and redo(undo(S)) = S for any state with a
non-empty past stack. -/
theorem c3_undo_redo_roundtrip (l : List Op) (s : HistState)
    (hne : l ≠ []) (hlen : l.length ≤ histLimit)
    (htr : s.hist.tracking = true) (ht : allTouch s l = true) :
    ((undoN l.length (applyOpsH l s)).board.objects = s.board.objects)
    ∧ (redoN l.length (undoN l.length (applyOpsH l s)) = applyOpsH l s)
    ∧ (∀ s2 : HistState, s2.hist.pastStates ≠ [] → redoH (undoH s2) = s2) := by
  obtain ⟨hp, hf, htk⟩ := applyOpsH_hist l s htr ht hne
  obtain ⟨op, rest, rfl⟩ : ∃ op rest, l = op :: rest := by
    cases l with
    | nil => exact absurd rfl hne
    | cons op rest => exact ⟨op, rest, rfl⟩
  have hlenTr : (objTrace (op :: rest) s).length = rest.length + 1 := by
    rw [objTrace_length]
    rfl
  have hlen2 : (objTrace rest (applyOpH op s)).length = rest.length :=
    objTrace_length rest (applyOpH op s)
  have htake : (objTrace (op :: rest) s ++ s.hist.pastStates).take histLimit
      = objTrace (op :: rest) s
        ++ s.hist.pastStates.take (histLimit - (rest.length + 1)) := by
    rw [List.take_append_eq_append_take]
    rw [List.take_of_length_le (by rw [hlenTr]; exact hlen)]
    rw [hlenTr]
  have hpast : (applyOpsH (op :: rest) s).hist.pastStates
      = objTrace rest (applyOpH op s)
        ++ s.board.objects :: s.hist.pastStates.take (histLimit - (rest.length + 1)) := by
    rw [hp, htake]
    rw [show objTrace (op :: rest) s
        = objTrace rest (applyOpH op s) ++ [s.board.objects] from rfl]
    rw [List.append_assoc]
    rfl
  refine ⟨?_, ?_, fun s2 h2 => redo_undo s2 h2⟩
  · have h1 := undoN_restore (objTrace rest (applyOpH op s)) s.board.objects _
      (applyOpsH (op :: rest) s) hpast
    rw [show (op :: rest).length = (objTrace rest (applyOpH op s)).length + 1 from by
      rw [hlen2]; rfl]
    exact h1
  · apply redoN_undoN
    rw [hpast]
    simp only [List.length_append, List.length_cons, List.length_cons, hlen2]
    omega

/-- Witness for C3 at a concrete two-call sequence. -/
theorem c3_undo_redo_roundtrip_witness :
    ((undoN 2 (applyOpsH [Op.add noteA, Op.add rectB] initialHist)).board.objects
        = initialHist.board.objects)
    ∧ (redoN 2 (undoN 2 (applyOpsH [Op.add noteA, Op.add rectB] initialHist))
        = applyOpsH [Op.add noteA, Op.add rectB] initialHist) := by
  have h := c3_undo_redo_roundtrip [Op.add noteA, Op.add rectB] initialHist
    (by simp) (by decide) rfl (by decide)
  exact ⟨h.1, h.2.1⟩

end CollabBoard
